import Mathlib

/-
  Verification development for the NeMo PEFT adapter-injection subsystem:

  * `nemo/collections/llm/adapter/base.py`
      - `AdapterWrapper.state_dict`, `AdapterWrapper.sharded_state_dict`,
        `AdapterWrapper.load_state_dict`, `peft_model_transform`
  * `nemo/collections/llm/peft/lora.py`
      - `AdapterParallelAdd.forward`, `LoRA.transform`

  The embedding is shallow: PyTorch modules become a `Module` tree of named
  parameters, state dicts become insertion-ordered association lists
  (mirroring Python `dict` semantics: ordered keys, `d[k] = v` keeps the
  position of an existing key, `d.pop(k)` removes the key in place),
  tensors are abstracted to integers.  External code (`MegatronParallel.freeze`,
  `MegatronParallel.walk`, `ParallelLinearAdapter`, torch default
  `state_dict`/`load_state_dict`) is modelled from the spec where noted.
-/

namespace NeMoPEFT

/-- A named parameter of a module: the tensor value is abstracted to an
integer and `requiresGrad` mirrors the torch `requires_grad` flag. -/
structure Param where
  name : String
  value : Int
  requiresGrad : Bool
deriving DecidableEq, Repr

/-- Dropout placement relative to the low-rank projection
(`dropout_position` argument of `LoRA` in `lora.py`). -/
inductive DropoutPosition where
  | pre
  | post
deriving DecidableEq, Repr

/-- The constructor arguments of `ParallelLinearAdapter` exactly as passed
by `LoRA.transform` in `lora.py` (lines 91-105). -/
structure AdapterCfg where
  in_features : Nat
  out_features : Nat
  dim : Nat
  activation : String
  norm_position : Option String
  norm_type : Option String
  column_init_method : String
  row_init_method : String
  gather_output : Bool
  input_is_parallel : Bool
  dropout : Rat
  dropout_position : DropoutPosition
  alpha : Nat
deriving DecidableEq, Repr

mutual
/-- A PyTorch module tree.  `linear` models the megatron target linear
layers (they expose `in_features`/`out_features`); `adapterMod` models a
constructed `ParallelLinearAdapter`; `wrap` models an `AdapterParallelAdd`
(the `AdapterWrapper` subclass built by `LoRA.transform`, holding `to_wrap`
and `adapter`); `container` models any other module with named children. -/
inductive Module where
  | linear (in_features out_features : Nat) (params : List Param)
  | adapterMod (cfg : AdapterCfg) (params : List Param)
  | wrap (to_wrap adapter : Module)
  | container (children : Children)
deriving DecidableEq, Repr

/-- The ordered, named children of a `container` module. -/
inductive Children where
  | nil
  | cons (name : String) (child : Module) (rest : Children)
deriving DecidableEq, Repr
end

/-- Python attribute access `m.in_features`: present on linear layers (and on
a `ParallelLinearAdapter`, which stores its constructor dims); absent
(`AttributeError`) on wrappers and generic containers. -/
def Module.in_features? : Module → Option Nat
  | .linear i _ _ => some i
  | .adapterMod c _ => some c.in_features
  | _ => none

/-- Python attribute access `m.out_features`, same availability as
`Module.in_features?`. -/
def Module.out_features? : Module → Option Nat
  | .linear _ o _ => some o
  | .adapterMod c _ => some c.out_features
  | _ => none

mutual
/-- All parameters owned by a module tree, in traversal order. -/
def Module.params : Module → List Param
  | .linear _ _ ps => ps
  | .adapterMod _ ps => ps
  | .wrap b a => b.params ++ a.params
  | .container cs => cs.params

/-- All parameters owned by a list of children, in order. -/
def Children.params : Children → List Param
  | .nil => []
  | .cons _ c rest => c.params ++ rest.params
end

/-- Set `requires_grad = False` on one parameter. -/
def Param.freeze (p : Param) : Param := { p with requiresGrad := false }

mutual
/-- Modelled from the spec: `MegatronParallel.freeze` (the `m.freeze()` call
in `peft_model_transform`; `nemo.lightning.megatron_parallel` is not under
`src/`).  Per spec section 6, `freeze()` marks all owned parameters
non-trainable. -/
def Module.freeze : Module → Module
  | .linear i o ps => .linear i o (ps.map Param.freeze)
  | .adapterMod c ps => .adapterMod c (ps.map Param.freeze)
  | .wrap b a => .wrap b.freeze a.freeze
  | .container cs => .container cs.freeze

/-- Freeze every child module. -/
def Children.freeze : Children → Children
  | .nil => .nil
  | .cons n c rest => .cons n c.freeze rest.freeze
end

/-- Errors that the transform / orchestration layer can surface.
`attributeError` models a Python `AttributeError` on a missing attribute;
`doubleWrapError` is the `DoubleWrapError` kind named by spec section 7
(it is never raised by the code; it is declared here so that claims about
it can be stated). -/
inductive TransformError where
  | attributeError (attr : String)
  | doubleWrapError
deriving DecidableEq, Repr

/-- Modelled from the spec: construction-time parameters of a
`ParallelLinearAdapter` (external module, `nemo.collections.nlp...parallel_adapters`
is not under `src/`).  Per the spec, a low-rank adapter owns two projection
weights; `column_init_method="normal"` is abstracted as the value 1, and
`row_init_method="zero"` as 0.  Newly constructed adapter parameters are
trainable. -/
def adapterInitParams : List Param :=
  [⟨"linear_in.weight", 1, true⟩, ⟨"linear_out.weight", 0, true⟩]

/-- Modelled from the spec: `ParallelLinearAdapter(...)` construction — a new
adapter module recording its constructor arguments, with fresh trainable
parameters. -/
def ParallelLinearAdapter.make (cfg : AdapterCfg) : Module :=
  .adapterMod cfg adapterInitParams

/-- The `LoRA` dataclass of `lora.py` with its default field values. -/
structure LoRA where
  target_modules : List String := ["linear_qkv", "linear_proj"]
  dim : Nat := 32
  alpha : Nat := 32
  dropout : Rat := 0
  dropout_position : DropoutPosition := .post
deriving Repr

/-- `LoRA.transform` from `lora.py` (lines 63-107).  `tp_size` is the value
returned by `parallel_state.get_tensor_model_parallel_world_size()`.
If `name` is in `target_modules`, the module's `in_features`/`out_features`
attributes are read (an `AttributeError` if the module has neither, e.g. an
`AdapterParallelAdd`), the name is classified column-parallel when it is
`linear_qkv` or `linear_fc1` and row-parallel otherwise (the source's bare
`else:` branch), and a `ParallelLinearAdapter` is built with the global
dimensions; otherwise the module is returned unchanged. -/
def LoRA.transform (self : LoRA) (tp_size : Nat) (m : Module) (name : String)
    (_pfx : String) : Except TransformError Module :=
  if name ∈ self.target_modules then
    match m.in_features?, m.out_features? with
    | some mIn, some mOut =>
      if name ∈ ["linear_qkv", "linear_fc1"] then
        -- Column Parallel Linear
        .ok (.wrap m (ParallelLinearAdapter.make
          { in_features := mIn
            out_features := mOut * tp_size
            dim := self.dim
            activation := "identity"
            norm_position := none
            norm_type := none
            column_init_method := "normal"
            row_init_method := "zero"
            gather_output := false
            input_is_parallel := false
            dropout := self.dropout
            dropout_position := self.dropout_position
            alpha := self.alpha }))
      else
        -- Row Parallel Linear (source comment: name in ['linear_proj', 'linear_fc2'])
        .ok (.wrap m (ParallelLinearAdapter.make
          { in_features := mIn * tp_size
            out_features := mOut
            dim := self.dim
            activation := "identity"
            norm_position := none
            norm_type := none
            column_init_method := "normal"
            row_init_method := "zero"
            gather_output := false
            input_is_parallel := true
            dropout := self.dropout
            dropout_position := self.dropout_position
            alpha := self.alpha }))
    | _, _ => .error (.attributeError "in_features")
  else
    .ok m

mutual
/-- Modelled from the spec: `MegatronParallel.walk` (the `m.walk(wrap_fn)`
call in `peft_model_transform`; not under `src/`).  Per spec section 4.3
step 2: depth-first, parent before children, siblings in order; the
transform is invoked on every module; if the result differs from the input
the child reference is replaced and the newly inserted module's sub-modules
are not re-visited in the same pass; if it is unchanged, traversal descends
into the children. -/
def Module.walk (f : Module → String → String → Except TransformError Module) :
    Module → String → String → Except TransformError Module
  | .linear i o ps, name, pfx => f (.linear i o ps) name pfx
  | .adapterMod c ps, name, pfx => f (.adapterMod c ps) name pfx
  | .container cs, name, pfx =>
    match f (.container cs) name pfx with
    | .error e => .error e
    | .ok m' =>
      if m' = .container cs then
        match Children.walk f cs (pfx ++ name ++ ".") with
        | .error e => .error e
        | .ok cs' => .ok (.container cs')
      else
        .ok m'
  | .wrap b a, name, pfx =>
    match f (.wrap b a) name pfx with
    | .error e => .error e
    | .ok m' =>
      if m' = .wrap b a then
        match Module.walk f b "to_wrap" (pfx ++ name ++ ".") with
        | .error e => .error e
        | .ok b' =>
          match Module.walk f a "adapter" (pfx ++ name ++ ".") with
          | .error e => .error e
          | .ok a' => .ok (.wrap b' a')
      else
        .ok m'

/-- Walk every named child in declaration order. -/
def Children.walk (f : Module → String → String → Except TransformError Module) :
    Children → String → Except TransformError Children
  | .nil, _ => .ok .nil
  | .cons n c rest, pfx =>
    match Module.walk f c n pfx with
    | .error e => .error e
    | .ok c' =>
      match Children.walk f rest pfx with
      | .error e => .error e
      | .ok rest' => .ok (.cons n c' rest')
end

/-- `peft_model_transform` from `base.py` (lines 60-73): the returned
`model_fn` first freezes the base model, then recursively applies the wrap
function to the module tree. -/
def peft_model_transform
    (wrap_fn : Module → String → String → Except TransformError Module)
    (m : Module) : Except TransformError Module :=
  Module.walk wrap_fn m.freeze "" ""

/-- A runtime value flowing through `forward`: an abstract tensor or a
2-tuple (the spec's design note models the source's tuple-or-scalar
returns as exactly this tagged union). -/
inductive TValue where
  | tensor (v : Int)
  | pair (fst snd : TValue)
deriving DecidableEq, Repr

/-- Runtime errors of `AdapterParallelAdd.forward`: `cannotUnpack` models
the Python error raised by `linear_output, bias = self.to_wrap(x)` when the
base forward does not return a 2-tuple; `typeErrorAdd` models `+` applied to
non-tensor operands. -/
inductive ForwardError where
  | cannotUnpack
  | typeErrorAdd
deriving DecidableEq, Repr

/-- Tensor addition `linear_output + adapter_output` (shape bookkeeping is
abstracted away; adding non-tensors is a type error). -/
def addTensors : TValue → TValue → Except ForwardError TValue
  | .tensor a, .tensor b => .ok (.tensor (a + b))
  | _, _ => .error .typeErrorAdd

/-- `AdapterParallelAdd.forward` from `lora.py` (lines 14-21), with the base
and adapter modules abstracted as their forward functions.  The base result
is unpacked as `(linear_output, bias)`; if `linear_output` is itself a
2-tuple `(output, layernorm_output)` the adapter is applied to
`layernorm_output`, otherwise to `x`; the adapter delta is added to the
primary output and `bias` is passed through unchanged. -/
def AdapterParallelAdd.forward (to_wrapF adapterF : TValue → TValue)
    (x : TValue) : Except ForwardError (TValue × TValue) :=
  match to_wrapF x with
  | .pair linear_output bias =>
    match linear_output with
    | .pair out layernorm_output =>
      match addTensors out (adapterF layernorm_output) with
      | .error e => .error e
      | .ok s => .ok (s, bias)
    | other =>
      match addTensors other (adapterF x) with
      | .error e => .error e
      | .ok s => .ok (s, bias)
  | _ => .error .cannotUnpack

/-- The primary output the source keeps after the optional inner unpack:
the first component of a 2-tuple, or the value itself. -/
def primaryOf : TValue → TValue
  | .pair fst _ => fst
  | v => v

/-- The tensor the adapter is invoked on: the intermediate normalized tensor
when the base's primary result is a 2-tuple, otherwise the original input. -/
def adapterArg (linear_output x : TValue) : TValue :=
  match linear_output with
  | .pair _ ln => ln
  | _ => x

/-- A value stored in a state dict: a tensor, or a nested state dict (the
adapter state dict is stored as a single nested value). -/
inductive SDValue where
  | tensor (v : Int)
  | nested (entries : List (String × SDValue))

mutual
/-- Equality of state-dict values is decidable. -/
def SDValue.decEq : (a b : SDValue) → Decidable (a = b)
  | .tensor x, .tensor y =>
    letI := Int.decEq x y
    decidable_of_iff (x = y) (by simp)
  | .tensor _, .nested _ => isFalse (fun h => SDValue.noConfusion h)
  | .nested _, .tensor _ => isFalse (fun h => SDValue.noConfusion h)
  | .nested xs, .nested ys =>
    letI := SDValue.decEqEntries xs ys
    decidable_of_iff (xs = ys) (by simp)

/-- Equality of state-dict entry lists is decidable. -/
def SDValue.decEqEntries : (a b : List (String × SDValue)) → Decidable (a = b)
  | [], [] => isTrue rfl
  | [], _ :: _ => isFalse (fun h => List.noConfusion h)
  | _ :: _, [] => isFalse (fun h => List.noConfusion h)
  | (k, v) :: r, (k', v') :: r' =>
    letI := SDValue.decEq v v'
    letI := SDValue.decEqEntries r r'
    decidable_of_iff (k = k' ∧ v = v' ∧ r = r') (by simp [and_assoc])
end

instance : DecidableEq SDValue := SDValue.decEq

/-- A Python state dict: insertion-ordered keys. -/
abbrev StateDict := List (String × SDValue)

/-- `sd[key]` / `key in sd`: first (unique, for a real dict) occurrence. -/
def sdLookup : StateDict → String → Option SDValue
  | [], _ => none
  | (k, v) :: rest, key => if k = key then some v else sdLookup rest key

/-- `sd[key] = v`: replace in place if the key exists, else append. -/
def sdInsert : StateDict → String → SDValue → StateDict
  | [], key, v => [(key, v)]
  | (k, w) :: rest, key, v =>
    if k = key then (key, v) :: rest else (k, w) :: sdInsert rest key v

/-- `sd.pop(key)`: the dict with the key's entry removed. -/
def sdErase : StateDict → String → StateDict
  | [], _ => []
  | (k, w) :: rest, key => if k = key then rest else (k, w) :: sdErase rest key

/-- The keys of a state dict, in order. -/
def sdKeys (sd : StateDict) : List String := sd.map (fun e => e.1)

/-- The state-dict entries contributed by a flat parameter list under a
given key prefix. -/
def paramEntries (ps : List Param) (pfx : String) : StateDict :=
  ps.map (fun p => (pfx ++ p.name, SDValue.tensor p.value))

mutual
/-- Torch `module.state_dict(destination, prefix)` semantics (external,
modelled from the torch contract): append this module's entries, keyed by
`prefix + name`, into `destination` and return it; children contribute
under `prefix + child_name + "."`.  A `wrap` node uses the
`AdapterWrapper.state_dict` override from `base.py`: the base fills the
destination and the whole adapter state dict is stored under the reserved
`prefix + "adapters"` key. -/
def Module.state_dict_into : Module → StateDict → String → StateDict
  | .linear _ _ ps, dest, pfx => dest ++ paramEntries ps pfx
  | .adapterMod _ ps, dest, pfx => dest ++ paramEntries ps pfx
  | .wrap b a, dest, pfx =>
    sdInsert (Module.state_dict_into b dest pfx) (pfx ++ "adapters")
      (.nested (Module.state_dict_into a [] pfx))
  | .container cs, dest, pfx => Children.state_dict_into cs dest pfx

/-- State-dict entries of a list of children, each under its own prefix. -/
def Children.state_dict_into : Children → StateDict → String → StateDict
  | .nil, dest, _ => dest
  | .cons n c rest, dest, pfx =>
    Children.state_dict_into rest (Module.state_dict_into c dest (pfx ++ n ++ ".")) pfx
end

/-- `AdapterWrapper.state_dict` from `base.py` (lines 16-26): start from the
caller's destination (a fresh dict when `None`), let the wrapped module fill
it, produce the adapter's own state dict separately, and store it under the
single reserved key `f"{prefix}adapters"` in the destination, which is
returned. -/
def AdapterWrapper.state_dict (to_wrap adapter : Module)
    (destination : Option StateDict) (pfx : String) : StateDict :=
  let dest := destination.getD []
  let main_state_dict := Module.state_dict_into to_wrap dest pfx
  let adapter_state_dict := Module.state_dict_into adapter [] pfx
  sdInsert main_state_dict (pfx ++ "adapters") (.nested adapter_state_dict)

/-- `AdapterWrapper.sharded_state_dict` from `base.py` (lines 28-37): the
union of the wrapped module's sharded state under `prefix` and the adapter's
sharded state under `prefix + "adapter."` (each sub-module's own sharded
export is abstracted as its flat entries). -/
def AdapterWrapper.sharded_state_dict (to_wrap adapter : Module)
    (pfx : String) : StateDict :=
  Module.state_dict_into to_wrap [] pfx ++
    Module.state_dict_into adapter [] (pfx ++ "adapter.")

/-- Look up a tensor entry (a nested value does not load into a single
parameter). -/
def lookupTensor (sd : StateDict) (key : String) : Option Int :=
  match sdLookup sd key with
  | some (.tensor v) => some v
  | _ => none

mutual
/-- Torch parameter loading (external, modelled from the torch contract):
each parameter takes the value found under `prefix + name`, keeping its own
`requires_grad` flag; parameters without a matching entry are left as they
are.  A `wrap` node mirrors the `AdapterWrapper` convention: the adapter
sub-module reads the nested dict under the reserved key when present and
non-empty. -/
def Module.load_from : Module → StateDict → String → Module
  | .linear i o ps, sd, pfx =>
    .linear i o (ps.map (fun p =>
      { p with value := (lookupTensor sd (pfx ++ p.name)).getD p.value }))
  | .adapterMod c ps, sd, pfx =>
    .adapterMod c (ps.map (fun p =>
      { p with value := (lookupTensor sd (pfx ++ p.name)).getD p.value }))
  | .wrap b a, sd, pfx =>
    .wrap (Module.load_from b sd pfx)
      (match sdLookup sd (pfx ++ "adapters") with
       | some (.nested d) => if d.isEmpty then a else Module.load_from a d pfx
       | _ => a)
  | .container cs, sd, pfx => .container (Children.load_from cs sd pfx)

/-- Load every child module in order. -/
def Children.load_from : Children → StateDict → String → Children
  | .nil, _, _ => .nil
  | .cons n c rest, sd, pfx =>
    .cons n (Module.load_from c sd (pfx ++ n ++ ".")) (Children.load_from rest sd pfx)
end

/-- The keys a module's own `state_dict()` would produce under a prefix. -/
def Module.state_keys (m : Module) (pfx : String) : List String :=
  sdKeys (Module.state_dict_into m [] pfx)

/-- Errors of state loading: `loadMismatch` models the strict-mode missing /
unexpected key error of torch `load_state_dict`; `invalidAdapterState`
models the failure when the reserved key holds a tensor rather than a
nested dict. -/
inductive LoadError where
  | loadMismatch (missing unexpected : List String)
  | invalidAdapterState
deriving DecidableEq, Repr

/-- Torch `module.load_state_dict(sd, strict)` for a plain module (external,
modelled from the torch contract): under `strict` the given keys must be
exactly the module's own state keys (otherwise a mismatch error naming the
missing and unexpected keys), and the parameter values are copied in. -/
def Module.load_state_dict (m : Module) (sd : StateDict) (strict : Bool) :
    Except LoadError Module :=
  let expected := m.state_keys ""
  let given := sdKeys sd
  let missing := expected.filter (fun k => !(given.contains k))
  let unexpected := given.filter (fun k => !(expected.contains k))
  if strict && (!missing.isEmpty || !unexpected.isEmpty) then
    .error (.loadMismatch missing unexpected)
  else
    .ok (m.load_from sd "")

/-- The observable outcome of `AdapterWrapper.load_state_dict`: the two
sub-modules after the call, the incoming dict as the caller sees it after
the call (`pop` mutates it), and the exact arguments of the delegated
`load_state_dict` calls (`adapterCall = none` when the adapter's import was
not invoked). -/
structure WrapperLoadResult where
  to_wrap : Module
  adapter : Module
  callerState : StateDict
  baseCall : StateDict × Bool
  adapterCall : Option (StateDict × Bool)
deriving DecidableEq

/-- `AdapterWrapper.load_state_dict` from `base.py` (lines 39-51): if the
`'adapters'` key is present it is popped (removed from the caller's dict)
and the remainder is handed to the wrapped module's `load_state_dict` with
the caller's `strict` flag; the popped adapter state dict is loaded into
the adapter only when it is non-empty (Python truthiness of a dict). -/
def AdapterWrapper.load_state_dict (to_wrap adapter : Module)
    (state_dict : StateDict) (strict : Bool) :
    Except LoadError WrapperLoadResult :=
  match sdLookup state_dict "adapters" with
  | some (.nested adapter_state_dict) =>
    let remainder := sdErase state_dict "adapters"
    match to_wrap.load_state_dict remainder strict with
    | .error e => .error e
    | .ok tw' =>
      if adapter_state_dict.isEmpty then
        .ok ⟨tw', adapter, remainder, (remainder, strict), none⟩
      else
        match adapter.load_state_dict adapter_state_dict strict with
        | .error e => .error e
        | .ok ad' =>
          .ok ⟨tw', ad', remainder, (remainder, strict),
            some (adapter_state_dict, strict)⟩
  | some (.tensor _) => .error .invalidAdapterState
  | none =>
    match to_wrap.load_state_dict state_dict strict with
    | .error e => .error e
    | .ok tw' => .ok ⟨tw', adapter, state_dict, (state_dict, strict), none⟩

-- Equality of `Except` values of decidable types is decidable, so concrete
-- runs can be checked by `decide`.
deriving instance DecidableEq for Except

/-- The adapter construction dimensions demanded by the spec's "Dimension
symmetry" property, written from the spec's words: for a column-style
target with local `(in=I, out=O)` and world size `T` the adapter gets
global dims `(in=I, out=O*T)` with `input_is_parallel = false`; for a
row-style target `(in=I*T, out=O)` with `input_is_parallel = true`; the
remaining hyperparameters are passed through from the policy. -/
def specAdapterDims (self : LoRA) (tp i o : Nat) (name : String) : AdapterCfg :=
  if name = "linear_qkv" ∨ name = "linear_fc1" then
    { in_features := i
      out_features := o * tp
      dim := self.dim
      activation := "identity"
      norm_position := none
      norm_type := none
      column_init_method := "normal"
      row_init_method := "zero"
      gather_output := false
      input_is_parallel := false
      dropout := self.dropout
      dropout_position := self.dropout_position
      alpha := self.alpha }
  else
    { in_features := i * tp
      out_features := o
      dim := self.dim
      activation := "identity"
      norm_position := none
      norm_type := none
      column_init_method := "normal"
      row_init_method := "zero"
      gather_output := false
      input_is_parallel := true
      dropout := self.dropout
      dropout_position := self.dropout_position
      alpha := self.alpha }

/-- A concrete adapter configuration used by the concrete instances below. -/
def acfgX : AdapterCfg :=
  { in_features := 2
    out_features := 2
    dim := 1
    activation := "identity"
    norm_position := none
    norm_type := none
    column_init_method := "normal"
    row_init_method := "zero"
    gather_output := false
    input_is_parallel := false
    dropout := 0
    dropout_position := .post
    alpha := 1 }

/-- Concrete wrapped linear module (trained values). -/
def twX : Module := .linear 2 2 [⟨"weight", 7, false⟩, ⟨"bias", 3, false⟩]

/-- Concrete adapter module (trained values). -/
def adX : Module :=
  .adapterMod acfgX [⟨"linear_in.weight", 4, true⟩, ⟨"linear_out.weight", 5, true⟩]

/-- Concrete freshly-constructed wrapped linear module (blank values). -/
def twY : Module := .linear 2 2 [⟨"weight", 0, true⟩, ⟨"bias", 0, true⟩]

/-- Concrete freshly-constructed adapter module (blank values). -/
def adY : Module :=
  .adapterMod acfgX [⟨"linear_in.weight", 0, true⟩, ⟨"linear_out.weight", 0, true⟩]

/-- An incoming state with base entries and an explicitly empty `adapters`
sub-state. -/
def sdEmptyAdapters : StateDict :=
  [("weight", .tensor 1), ("bias", .tensor 2), ("adapters", .nested [])]

/-- An incoming state with base entries and a populated `adapters`
sub-state. -/
def sdFullAdapters : StateDict :=
  [("weight", .tensor 1), ("bias", .tensor 2),
   ("adapters", .nested [("linear_in.weight", .tensor 8), ("linear_out.weight", .tensor 9)])]

/-- A one-target toy model: a container whose only child is the
`linear_qkv` linear layer from the spec's concrete scenario family. -/
def modelX : Module :=
  .container (.cons "linear_qkv" (.linear 4 4 [⟨"weight", 5, true⟩]) .nil)

/-- The adapter configuration produced for `modelX`'s `linear_qkv` child at
world size 2 (column-parallel: `out = 4 * 2`). -/
def adapterCfgQKV : AdapterCfg :=
  { in_features := 4
    out_features := 8
    dim := 32
    activation := "identity"
    norm_position := none
    norm_type := none
    column_init_method := "normal"
    row_init_method := "zero"
    gather_output := false
    input_is_parallel := false
    dropout := 0
    dropout_position := .post
    alpha := 32 }

/-- The result of applying the default-LoRA PEFT transform to `modelX` at
world size 2: the base parameter is frozen and the target child is wrapped. -/
def modelXWrapped : Module :=
  .container (.cons "linear_qkv"
    (.wrap (.linear 4 4 [⟨"weight", 5, false⟩])
      (ParallelLinearAdapter.make adapterCfgQKV)) .nil)

/-- A base-only incoming state (no reserved key). -/
def sdC6 : StateDict := [("weight", .tensor 1), ("bias", .tensor 2)]

/-- The concrete outcome of loading `sdC6` into `(twY, adY)` strictly. -/
def rC6 : WrapperLoadResult :=
  { to_wrap := .linear 2 2 [⟨"weight", 1, true⟩, ⟨"bias", 2, true⟩]
    adapter := adY
    callerState := sdC6
    baseCall := (sdC6, true)
    adapterCall := none }

/-- The concrete outcome of loading `sdFullAdapters` into `(twY, adY)`
strictly. -/
def rC9 : WrapperLoadResult :=
  { to_wrap := .linear 2 2 [⟨"weight", 1, true⟩, ⟨"bias", 2, true⟩]
    adapter := .adapterMod acfgX
      [⟨"linear_in.weight", 8, true⟩, ⟨"linear_out.weight", 9, true⟩]
    callerState := [("weight", .tensor 1), ("bias", .tensor 2)]
    baseCall := ([("weight", .tensor 1), ("bias", .tensor 2)], true)
    adapterCall := some ([("linear_in.weight", .tensor 8),
      ("linear_out.weight", .tensor 9)], true) }

/-- The empty string is a left identity for string append (the `prefix`
argument is `''` at the top level of a load). -/
theorem empty_append_str (s : String) : "" ++ s = s := rfl

/-- Looking up the key just inserted returns the inserted value. -/
theorem sdLookup_insert_self (sd : StateDict) (k : String) (v : SDValue) :
    sdLookup (sdInsert sd k v) k = some v := by
  induction sd with
  | nil => simp [sdInsert, sdLookup]
  | cons e rest ih =>
    by_cases h : e.1 = k
    · simp [sdInsert, h, sdLookup]
    · simp [sdInsert, h, sdLookup, ih]

/-- Inserting at one key leaves lookups of every other key unchanged. -/
theorem sdLookup_insert_ne (sd : StateDict) (k k' : String) (v : SDValue)
    (h : k' ≠ k) : sdLookup (sdInsert sd k v) k' = sdLookup sd k' := by
  induction sd with
  | nil => simp [sdInsert, sdLookup, h, Ne.symm h]
  | cons e rest ih =>
    by_cases he : e.1 = k
    · subst he
      simp [sdInsert, sdLookup, h, Ne.symm h]
    · by_cases he' : e.1 = k'
      · simp [sdInsert, sdLookup, he, he', h]
      · simp [sdInsert, sdLookup, he, he', ih]

/-- Inserting a key that is not present appends the entry at the end. -/
theorem sdInsert_of_not_mem (sd : StateDict) (k : String) (v : SDValue)
    (h : k ∉ sdKeys sd) : sdInsert sd k v = sd ++ [(k, v)] := by
  induction sd with
  | nil => simp [sdInsert]
  | cons e rest ih =>
    simp only [sdKeys, List.map_cons, List.mem_cons] at h
    push_neg at h
    simp [sdInsert, Ne.symm h.1, ih (by simpa [sdKeys] using h.2)]

/-- Erasing a key that is not present is the identity. -/
theorem sdErase_of_not_mem (sd : StateDict) (k : String) (h : k ∉ sdKeys sd) :
    sdErase sd k = sd := by
  induction sd with
  | nil => simp [sdErase]
  | cons e rest ih =>
    simp only [sdKeys, List.map_cons, List.mem_cons] at h
    push_neg at h
    simp [sdErase, Ne.symm h.1, ih (by simpa [sdKeys] using h.2)]

/-- Erasing a key that is absent from a lookup's point of view is the
identity. -/
theorem sdErase_of_lookup_none (sd : StateDict) (k : String)
    (h : sdLookup sd k = none) : sdErase sd k = sd := by
  induction sd with
  | nil => simp [sdErase]
  | cons e rest ih =>
    by_cases he : e.1 = k
    · simp [sdLookup, he] at h
    · simp only [sdLookup, he, if_false] at h
      simp [sdErase, he, ih h]

/-- Erasing an appended fresh key recovers the original dict. -/
theorem sdErase_append_of_not_mem (sd : StateDict) (k : String) (v : SDValue)
    (h : k ∉ sdKeys sd) : sdErase (sd ++ [(k, v)]) k = sd := by
  induction sd with
  | nil => simp [sdErase]
  | cons e rest ih =>
    simp only [sdKeys, List.map_cons, List.mem_cons] at h
    push_neg at h
    simp [sdErase, Ne.symm h.1, ih (by simpa [sdKeys] using h.2)]

/-- Erasing one key leaves lookups of every other key unchanged. -/
theorem sdLookup_erase_ne (sd : StateDict) (k k' : String) (h : k' ≠ k) :
    sdLookup (sdErase sd k) k' = sdLookup sd k' := by
  induction sd with
  | nil => simp [sdErase]
  | cons e rest ih =>
    by_cases he : e.1 = k
    · subst he
      simp [sdErase, sdLookup, Ne.symm h]
    · by_cases he' : e.1 = k'
      · simp [sdErase, sdLookup, he, he', h]
      · simp [sdErase, sdLookup, he, he', ih]

/-- A key outside the key list is never found. -/
theorem lookup_none_of_not_mem (sd : StateDict) (k : String)
    (h : k ∉ sdKeys sd) : sdLookup sd k = none := by
  induction sd with
  | nil => simp [sdLookup]
  | cons e rest ih =>
    simp only [sdKeys, List.map_cons, List.mem_cons] at h
    push_neg at h
    simp [sdLookup, Ne.symm h.1, ih (by simpa [sdKeys] using h.2)]

/-- With unique keys (a real Python dict), the erased key is gone. -/
theorem sdLookup_erase_self (sd : StateDict) (k : String)
    (h : (sdKeys sd).Nodup) : sdLookup (sdErase sd k) k = none := by
  induction sd with
  | nil => simp [sdErase, sdLookup]
  | cons e rest ih =>
    simp only [sdKeys, List.map_cons, List.nodup_cons] at h
    by_cases he : e.1 = k
    · subst he
      induction rest with
      | nil => simp [sdErase, sdLookup]
      | cons e' rest' _ =>
        simp only [sdKeys, List.map_cons, List.mem_cons] at h
        push_neg at h
        simp [sdErase, sdLookup, Ne.symm h.1.1]
        exact lookup_none_of_not_mem rest' e.1 (by simpa [sdKeys] using h.1.2)
    · simp [sdErase, sdLookup, he, ih h.2]

/-- Lookup walks the left part of an append first. -/
theorem sdLookup_append_right (sd sd' : StateDict) (k : String)
    (h : k ∉ sdKeys sd) : sdLookup (sd ++ sd') k = sdLookup sd' k := by
  induction sd with
  | nil => simp
  | cons e rest ih =>
    simp only [sdKeys, List.map_cons, List.mem_cons] at h
    push_neg at h
    simp [sdLookup, Ne.symm h.1, ih (by simpa [sdKeys] using h.2)]

/-- Keys of an append are the appended key lists. -/
theorem sdKeys_append (sd sd' : StateDict) :
    sdKeys (sd ++ sd') = sdKeys sd ++ sdKeys sd' := by
  simp [sdKeys]

/-- C1: for a target module with locally-visible feature counts `(i, o)` and
tensor-parallel world size `tp ≥ 1`, a column-style name (`linear_qkv`,
`linear_fc1`) yields an adapter constructed with global dims
`(in = i, out = o * tp)` and `input_is_parallel = false`, and a row-style
name (`linear_proj`, `linear_fc2`) yields `(in = i * tp, out = o)` and
`input_is_parallel = true` — i.e. `LoRA.transform` builds exactly the
adapter demanded by the spec's dimension-symmetry property. -/
theorem c1_dimension_symmetry (cfg : LoRA) (tp : Nat) (_htp : 1 ≤ tp)
    (i o : Nat) (ps : List Param) (name pfx : String)
    (hmem : name ∈ cfg.target_modules)
    (_hcls : name ∈ ["linear_qkv", "linear_fc1", "linear_proj", "linear_fc2"]) :
    cfg.transform tp (.linear i o ps) name pfx =
      .ok (.wrap (.linear i o ps)
        (ParallelLinearAdapter.make (specAdapterDims cfg tp i o name))) := by
  unfold LoRA.transform specAdapterDims
  rw [if_pos hmem]
  simp only [Module.in_features?, Module.out_features?]
  by_cases h : name = "linear_qkv" ∨ name = "linear_fc1"
  · rw [if_pos (show name ∈ ["linear_qkv", "linear_fc1"] by simpa using h), if_pos h]
  · rw [if_neg (show name ∉ ["linear_qkv", "linear_fc1"] by simpa using h), if_neg h]

/-- Witness for C1 at the spec's concrete scenario: `linear_qkv` with local
`(in=768, out=192)` and world size 4 gives global dims `(768, 768)` with
`input_is_parallel = false`; `linear_proj` with the same local dims gives
`(3072, 192)` with `input_is_parallel = true`. -/
theorem c1_dimension_symmetry_witness :
    ((1 : Nat) ≤ 4 ∧ "linear_qkv" ∈ ({} : LoRA).target_modules ∧
      "linear_qkv" ∈ ["linear_qkv", "linear_fc1", "linear_proj", "linear_fc2"]) ∧
    LoRA.transform {} 4 (.linear 768 192 []) "linear_qkv" "" =
      .ok (.wrap (.linear 768 192 [])
        (ParallelLinearAdapter.make (specAdapterDims {} 4 768 192 "linear_qkv"))) ∧
    (specAdapterDims {} 4 768 192 "linear_qkv").in_features = 768 ∧
    (specAdapterDims {} 4 768 192 "linear_qkv").out_features = 768 ∧
    (specAdapterDims {} 4 768 192 "linear_qkv").input_is_parallel = false ∧
    LoRA.transform {} 4 (.linear 768 192 []) "linear_proj" "" =
      .ok (.wrap (.linear 768 192 [])
        (ParallelLinearAdapter.make (specAdapterDims {} 4 768 192 "linear_proj"))) ∧
    (specAdapterDims {} 4 768 192 "linear_proj").in_features = 3072 ∧
    (specAdapterDims {} 4 768 192 "linear_proj").out_features = 192 ∧
    (specAdapterDims {} 4 768 192 "linear_proj").input_is_parallel = true :=
  ⟨⟨by decide, by decide, by decide⟩,
   c1_dimension_symmetry {} 4 (by decide) 768 192 [] "linear_qkv" "" (by decide) (by decide),
   by decide, by decide, by decide,
   c1_dimension_symmetry {} 4 (by decide) 768 192 [] "linear_proj" "" (by decide) (by decide),
   by decide, by decide, by decide⟩

/-- C4 counterexample: the name `linear_custom` is in the target set but is
none of the four recognized layer names, yet `LoRA.transform` does not fail
fast with a configuration error — it silently takes the row-parallel `else`
branch, returning a successful wrap with `input_is_parallel = true` and
`in_features = 4 * 2`. -/
theorem c4_counterexample :
    LoRA.transform { target_modules := ["linear_custom"] } 2
        (.linear 4 6 []) "linear_custom" "" =
      .ok (.wrap (.linear 4 6 [])
        (ParallelLinearAdapter.make
          { in_features := 8
            out_features := 6
            dim := 32
            activation := "identity"
            norm_position := none
            norm_type := none
            column_init_method := "normal"
            row_init_method := "zero"
            gather_output := false
            input_is_parallel := true
            dropout := 0
            dropout_position := .post
            alpha := 32 })) := by
  rfl

/-- C4 amended: a target-set name that is not classified column-style
(`linear_qkv`, `linear_fc1`) — including any unrecognized name — is silently
classified row-parallel-style by the bare `else` branch: the transform
succeeds and constructs the adapter with `in = i * tp`, `out = o`,
`input_is_parallel = true`; no configuration error is raised. -/
theorem c4_amended (cfg : LoRA) (tp : Nat) (i o : Nat) (ps : List Param)
    (name pfx : String) (hmem : name ∈ cfg.target_modules)
    (hcol : name ∉ ["linear_qkv", "linear_fc1"]) :
    cfg.transform tp (.linear i o ps) name pfx =
      .ok (.wrap (.linear i o ps)
        (ParallelLinearAdapter.make
          { in_features := i * tp
            out_features := o
            dim := cfg.dim
            activation := "identity"
            norm_position := none
            norm_type := none
            column_init_method := "normal"
            row_init_method := "zero"
            gather_output := false
            input_is_parallel := true
            dropout := cfg.dropout
            dropout_position := cfg.dropout_position
            alpha := cfg.alpha })) := by
  unfold LoRA.transform
  rw [if_pos hmem]
  simp only [Module.in_features?, Module.out_features?]
  rw [if_neg hcol]

/-- Witness for C4 amended: `linear_other` in a custom target set is wrapped
row-style with no error. -/
theorem c4_amended_witness :
    ("linear_other" ∈ ({ target_modules := ["linear_other"] } : LoRA).target_modules ∧
      "linear_other" ∉ ["linear_qkv", "linear_fc1"]) ∧
    LoRA.transform { target_modules := ["linear_other"] } 3 (.linear 5 7 []) "linear_other" "p" =
      .ok (.wrap (.linear 5 7 [])
        (ParallelLinearAdapter.make
          { in_features := 15
            out_features := 7
            dim := 32
            activation := "identity"
            norm_position := none
            norm_type := none
            column_init_method := "normal"
            row_init_method := "zero"
            gather_output := false
            input_is_parallel := true
            dropout := 0
            dropout_position := .post
            alpha := 32 })) :=
  ⟨⟨by decide, by decide⟩,
   c4_amended { target_modules := ["linear_other"] } 3 5 7 [] "linear_other" "p"
     (by decide) (by decide)⟩

/-- C3 counterexample: the claim allows the base forward to return a primary
output alone, but `AdapterParallelAdd.forward` unconditionally unpacks the
base result as `linear_output, bias = self.to_wrap(x)` — a base forward
returning a bare tensor makes the forward fail rather than produce
`primary + delta`. -/
theorem c3_counterexample :
    AdapterParallelAdd.forward (fun _ => .tensor 5) (fun v => v) (.tensor 1) =
      .error .cannotUnpack := by
  rfl

/-- C3 amended: the base forward must return a pair `(linear_output, bias)`;
the adapter is applied to the intermediate normalized tensor when
`linear_output` is itself a 2-tuple and to `x` otherwise, and the result is
the primary output plus the adapter delta, paired with the bias passed
through unchanged. -/
theorem c3_amended (to_wrapF adapterF : TValue → TValue)
    (x linear_output bias : TValue)
    (h : to_wrapF x = .pair linear_output bias) :
    AdapterParallelAdd.forward to_wrapF adapterF x =
      (addTensors (primaryOf linear_output) (adapterF (adapterArg linear_output x))).map
        (fun s => (s, bias)) := by
  unfold AdapterParallelAdd.forward
  rw [h]
  cases linear_output with
  | pair a b =>
    cases haa : addTensors a (adapterF b) <;>
      simp [primaryOf, adapterArg, haa, Except.map]
  | tensor v =>
    cases haa : addTensors (.tensor v) (adapterF x) <;>
      simp [primaryOf, adapterArg, haa, Except.map]

/-- Witness for C3 amended: a pair-returning base forward produces the base
output plus the adapter delta with the bias passed through. -/
theorem c3_amended_witness :
    AdapterParallelAdd.forward (fun _ => .pair (.tensor 5) (.tensor 9))
        (fun _ => .tensor 2) (.tensor 1) = .ok (.tensor 7, .tensor 9) :=
  (c3_amended (fun _ => .pair (.tensor 5) (.tensor 9)) (fun _ => .tensor 2)
    (.tensor 1) (.tensor 5) (.tensor 9) rfl).trans (by decide)

/-- C5: for every wrapped module and every prefix (provided the base does not
itself use the reserved name, which no real module does), `state_dict`
produces exactly the base module's own keys at the top level plus the single
reserved key `prefix ++ "adapters"`, under which the adapter's entire state
is stored; every non-reserved key's value is the base module's own — no
adapter key appears among the base keys. -/
theorem c5_namespace_isolation (to_wrap adapter : Module) (pfx : String)
    (hres : pfx ++ "adapters" ∉ sdKeys (Module.state_dict_into to_wrap [] pfx)) :
    sdKeys (AdapterWrapper.state_dict to_wrap adapter none pfx) =
      sdKeys (Module.state_dict_into to_wrap [] pfx) ++ [pfx ++ "adapters"] ∧
    sdLookup (AdapterWrapper.state_dict to_wrap adapter none pfx) (pfx ++ "adapters") =
      some (.nested (Module.state_dict_into adapter [] pfx)) ∧
    ∀ k, k ≠ pfx ++ "adapters" →
      sdLookup (AdapterWrapper.state_dict to_wrap adapter none pfx) k =
        sdLookup (Module.state_dict_into to_wrap [] pfx) k := by
  simp only [AdapterWrapper.state_dict, Option.getD]
  refine ⟨?_, sdLookup_insert_self _ _ _, fun k hk => sdLookup_insert_ne _ _ _ _ hk⟩
  rw [sdInsert_of_not_mem _ _ _ hres, sdKeys_append]
  rfl

/-- Witness for C5 on a concrete wrapper with prefix `"mod."`. -/
theorem c5_namespace_isolation_witness :
    ("mod." ++ "adapters" ∉ sdKeys (Module.state_dict_into twX [] "mod.")) ∧
    sdKeys (AdapterWrapper.state_dict twX adX none "mod.") =
      sdKeys (Module.state_dict_into twX [] "mod.") ++ ["mod." ++ "adapters"] ∧
    sdLookup (AdapterWrapper.state_dict twX adX none "mod.") ("mod." ++ "adapters") =
      some (.nested (Module.state_dict_into adX [] "mod.")) ∧
    sdLookup (AdapterWrapper.state_dict twX adX none "mod.") "mod.weight" =
      sdLookup (Module.state_dict_into twX [] "mod.") "mod.weight" :=
  ⟨by decide,
   (c5_namespace_isolation twX adX "mod." (by decide)).1,
   (c5_namespace_isolation twX adX "mod." (by decide)).2.1,
   (c5_namespace_isolation twX adX "mod." (by decide)).2.2 "mod.weight" (by decide)⟩

/-- C10: an incoming state whose reserved `adapters` key maps to an empty
mapping behaves exactly like one with no reserved key at all: the whole
load equals the load of the state with the key erased, the adapter's
own import is never invoked (`adapterCall = none`) — hence no strict
missing-key error can ever be reported for adapter parameters — and the adapter retains
its construction-time values. -/
theorem c10_empty_adapter_state (to_wrap adapter : Module) (sd : StateDict)
    (strict : Bool) (hnd : (sdKeys sd).Nodup)
    (h : sdLookup sd "adapters" = some (.nested [])) :
    AdapterWrapper.load_state_dict to_wrap adapter sd strict =
      AdapterWrapper.load_state_dict to_wrap adapter (sdErase sd "adapters") strict ∧
    ∀ r, AdapterWrapper.load_state_dict to_wrap adapter sd strict = .ok r →
      r.adapterCall = none ∧ r.adapter = adapter := by
  have hnone := sdLookup_erase_self sd "adapters" hnd
  constructor
  · simp only [AdapterWrapper.load_state_dict, h, hnone, List.isEmpty_nil]
    cases hbl : Module.load_state_dict to_wrap (sdErase sd "adapters") strict <;>
      simp [hbl]
  · intro r hr
    simp only [AdapterWrapper.load_state_dict, h, List.isEmpty_nil] at hr
    cases hbl : Module.load_state_dict to_wrap (sdErase sd "adapters") strict with
    | error e => rw [hbl] at hr; exact absurd hr (by simp)
    | ok tw' =>
      rw [hbl] at hr
      simp only [if_true] at hr
      cases hr
      exact ⟨rfl, rfl⟩

/-- Witness for C10 on a concrete state with an explicitly empty `adapters`
entry: the load coincides with the erased-key load, and the adapter is left
at its construction-time values with its import never invoked. -/
theorem c10_empty_adapter_state_witness :
    ((sdKeys sdEmptyAdapters).Nodup ∧
      sdLookup sdEmptyAdapters "adapters" = some (.nested [])) ∧
    AdapterWrapper.load_state_dict twY adY sdEmptyAdapters true =
      AdapterWrapper.load_state_dict twY adY (sdErase sdEmptyAdapters "adapters") true ∧
    (AdapterWrapper.load_state_dict twY adY sdEmptyAdapters true).map
        WrapperLoadResult.adapterCall = .ok none ∧
    (AdapterWrapper.load_state_dict twY adY sdEmptyAdapters true).map
        WrapperLoadResult.adapter = .ok adY :=
  ⟨⟨by decide, by decide⟩,
   (c10_empty_adapter_state twY adY sdEmptyAdapters true (by decide) (by decide)).1,
   by decide, by decide⟩

/-- C6 counterexample: with the reserved key present but mapped to an empty
mapping, and `strict = true`, the claim's "(i) ... then loads the extracted
sub-state into the adapter" fails — the adapter's import is not invoked at
all (`adapterCall = none`, not `some ([], true)`), the load succeeds, and
the adapter keeps its construction-time values even though a strict load of
an empty dict into an adapter owning parameters would have to report
missing keys. -/
theorem c6_counterexample :
    (AdapterWrapper.load_state_dict twY adY sdEmptyAdapters true).map
        WrapperLoadResult.adapterCall = .ok none ∧
    (none : Option (StateDict × Bool)) ≠ some (([] : StateDict), true) ∧
    (AdapterWrapper.load_state_dict twY adY sdEmptyAdapters true).map
        WrapperLoadResult.adapter = .ok adY := by
  exact ⟨by decide, by decide, by decide⟩

/-- The observable behavior of a successful `AdapterWrapper.load_state_dict`:
the base always receives the incoming state with the reserved key removed
(and the caller's strict flag), the caller's dict ends up without the
reserved key, the adapter's import runs exactly when the reserved key holds
a non-empty sub-state, and an uninvoked adapter keeps its values. -/
theorem wrapper_load_spec (to_wrap adapter : Module) (sd : StateDict) (strict : Bool)
    (r : WrapperLoadResult)
    (h : AdapterWrapper.load_state_dict to_wrap adapter sd strict = .ok r) :
    r.baseCall = (sdErase sd "adapters", strict) ∧
    r.callerState = sdErase sd "adapters" ∧
    r.adapterCall = (match sdLookup sd "adapters" with
      | some (.nested asd) => if asd.isEmpty then none else some (asd, strict)
      | _ => none) ∧
    (r.adapterCall = none → r.adapter = adapter) := by
  cases hlk : sdLookup sd "adapters" with
  | none =>
    rw [sdErase_of_lookup_none sd "adapters" hlk]
    simp only [AdapterWrapper.load_state_dict, hlk] at h
    cases hbl : Module.load_state_dict to_wrap sd strict with
    | error e => rw [hbl] at h; exact absurd h (by simp)
    | ok tw' =>
      rw [hbl] at h
      cases h
      exact ⟨rfl, rfl, rfl, fun _ => rfl⟩
  | some v =>
    cases v with
    | tensor t => simp [AdapterWrapper.load_state_dict, hlk] at h
    | nested asd =>
      simp only [AdapterWrapper.load_state_dict, hlk] at h
      cases hbl : Module.load_state_dict to_wrap (sdErase sd "adapters") strict with
      | error e => simp [hbl] at h
      | ok tw' =>
        simp only [hbl] at h
        by_cases hemp : asd.isEmpty
        · rw [if_pos hemp] at h
          cases h
          exact ⟨rfl, rfl, by simp [hemp], fun _ => rfl⟩
        · rw [if_neg hemp] at h
          cases had : Module.load_state_dict adapter asd strict with
          | error e => simp [had] at h
          | ok ad' =>
            simp only [had] at h
            cases h
            refine ⟨rfl, rfl, by simp [hemp], ?_⟩
            intro hc
            exact absurd hc (by simp)

/-- C6 amended: `load_state_dict` always hands the base module the incoming
state with the reserved key removed, together with the caller's strict
flag; the adapter's own import is invoked exactly when the reserved key is
present with a non-empty sub-state (and then with that sub-state and the
caller's strict flag); whenever the adapter's import is not invoked — the
key absent, or present but empty — the adapter retains its
construction-time initialization. -/
theorem c6_amended (to_wrap adapter : Module) (sd : StateDict) (strict : Bool)
    (r : WrapperLoadResult)
    (h : AdapterWrapper.load_state_dict to_wrap adapter sd strict = .ok r) :
    r.baseCall = (sdErase sd "adapters", strict) ∧
    r.callerState = sdErase sd "adapters" ∧
    r.adapterCall = (match sdLookup sd "adapters" with
      | some (.nested asd) => if asd.isEmpty then none else some (asd, strict)
      | _ => none) ∧
    (r.adapterCall = none → r.adapter = adapter) :=
  wrapper_load_spec to_wrap adapter sd strict r h

/-- Witness for C6 amended at a concrete base-only state (reserved key
absent): the base is handed the whole state with the strict flag, the
adapter import is not invoked, and the adapter keeps its initialization. -/
theorem c6_amended_witness :
    rC6.baseCall = (sdErase sdC6 "adapters", true) ∧
    rC6.callerState = sdErase sdC6 "adapters" ∧
    rC6.adapter = adY :=
  ⟨(c6_amended twY adY sdC6 true rC6 (by decide)).1,
   (c6_amended twY adY sdC6 true rC6 (by decide)).2.1,
   (c6_amended twY adY sdC6 true rC6 (by decide)).2.2.2 rfl⟩

/-- C9 counterexample: `load_state_dict` mutates the caller's incoming
mapping — after a call on a state containing the reserved key, the caller's
dict has lost that key (`pop`), so it is not the same mapping as before. -/
theorem c9_counterexample :
    (AdapterWrapper.load_state_dict twY adY sdFullAdapters true).map
        WrapperLoadResult.callerState =
      .ok [("weight", .tensor 1), ("bias", .tensor 2)] ∧
    ([("weight", .tensor 1), ("bias", .tensor 2)] : StateDict) ≠ sdFullAdapters := by
  exact ⟨by decide, by decide⟩

/-- C9 amended: `load_state_dict` removes exactly the reserved key from the
caller's mapping (in place, via `pop`) and leaves every other entry
unchanged; `state_dict` leaves both sub-modules' own entries intact — every
non-reserved key of the merged export looks up to the base module's own
value, and the reserved key holds the adapter's export unmodified. -/
theorem c9_amended (to_wrap adapter : Module) (sd : StateDict) (strict : Bool)
    (pfx : String) :
    (∀ r, AdapterWrapper.load_state_dict to_wrap adapter sd strict = .ok r →
       r.callerState = sdErase sd "adapters" ∧
       ∀ k, k ≠ "adapters" → sdLookup r.callerState k = sdLookup sd k) ∧
    (∀ k, k ≠ pfx ++ "adapters" →
       sdLookup (AdapterWrapper.state_dict to_wrap adapter none pfx) k =
         sdLookup (Module.state_dict_into to_wrap [] pfx) k) ∧
    sdLookup (AdapterWrapper.state_dict to_wrap adapter none pfx) (pfx ++ "adapters") =
      some (.nested (Module.state_dict_into adapter [] pfx)) := by
  refine ⟨?_, ?_, ?_⟩
  · intro r hr
    have h := wrapper_load_spec to_wrap adapter sd strict r hr
    refine ⟨h.2.1, fun k hk => ?_⟩
    rw [h.2.1, sdLookup_erase_ne sd "adapters" k hk]
  · intro k hk
    simp only [AdapterWrapper.state_dict, Option.getD]
    exact sdLookup_insert_ne _ _ _ _ hk
  · simp only [AdapterWrapper.state_dict, Option.getD]
    exact sdLookup_insert_self _ _ _

/-- Witness for C9 amended on a concrete populated state: the caller's
mapping after the call is the erased one, other keys are untouched, and
the export keeps the base entry and the full adapter sub-state. -/
theorem c9_amended_witness :
    ((AdapterWrapper.load_state_dict twY adY sdFullAdapters true).map
        WrapperLoadResult.callerState = .ok (sdErase sdFullAdapters "adapters")) ∧
    sdLookup (AdapterWrapper.state_dict twX adX none "") "weight" =
      sdLookup (Module.state_dict_into twX [] "") "weight" ∧
    sdLookup (AdapterWrapper.state_dict twX adX none "") ("" ++ "adapters") =
      some (.nested (Module.state_dict_into adX [] "")) := by
  have hmainY := c9_amended twY adY sdFullAdapters true ""
  have hmainX := c9_amended twX adX sdFullAdapters true ""
  refine ⟨?_, hmainX.2.1 "weight" (by decide), hmainX.2.2⟩
  rw [(by decide : AdapterWrapper.load_state_dict twY adY sdFullAdapters true = .ok rC9)]
  exact congrArg Except.ok ((hmainY.1 rC9 (by decide)).1)

/-- In an entry list built from parameters with unique names and the empty
prefix, each parameter's own name looks up its own value. -/
theorem lookupTensor_paramEntries (ps : List Param)
    (hnd : (ps.map Param.name).Nodup) :
    ∀ q ∈ ps, lookupTensor (paramEntries ps "") q.name = some q.value := by
  induction ps with
  | nil => intro q hq; exact absurd hq (List.not_mem_nil q)
  | cons p pt ih =>
    simp only [List.map_cons, List.nodup_cons] at hnd
    intro q hq
    rcases List.mem_cons.mp hq with h | h
    · subst h
      simp [paramEntries, lookupTensor, sdLookup, empty_append_str]
    · have hne : ¬(p.name = q.name) := by
        intro he
        exact hnd.1 (he ▸ List.mem_map_of_mem Param.name h)
      simp only [paramEntries, List.map_cons, lookupTensor, sdLookup,
        empty_append_str, hne, if_false]
      exact ih hnd.2 q h

/-- Loading from any state that pointwise recovers a reference parameter
list's values reproduces exactly those (name, value) pairs, provided the
fresh parameter list has the same names in the same order. -/
theorem load_values_of_names_eq (ps ps' : List Param) (full : StateDict)
    (hbn : ps.map Param.name = ps'.map Param.name)
    (hrec : ∀ q ∈ ps, lookupTensor full q.name = some q.value) :
    (ps'.map (fun p =>
        { p with value := (lookupTensor full p.name).getD p.value })).map
      (fun p => (p.name, p.value)) = ps.map (fun p => (p.name, p.value)) := by
  induction ps generalizing ps' with
  | nil =>
    have : ps' = [] := by
      cases ps' with
      | nil => rfl
      | cons a b => simp at hbn
    subst this
    rfl
  | cons p pt ih =>
    cases ps' with
    | nil => simp at hbn
    | cons p' pt' =>
      simp only [List.map_cons, List.cons.injEq] at hbn
      simp only [List.map_cons, List.cons.injEq]
      constructor
      · rw [← hbn.1, hrec p (List.mem_cons_self p pt)]
        simp [hbn.1]
      · exact ih pt' hbn.2 (fun q hq => hrec q (List.mem_cons_of_mem p hq))

/-- Every element of a list is contained in it, so filtering by
non-containment in itself gives the empty list. -/
theorem filter_not_contains_self (l : List String) :
    l.filter (fun k => !(l.contains k)) = [] := by
  rw [List.filter_eq_nil_iff]
  intro b hb
  simp [hb]

/-- A strict torch load succeeds whenever the given keys are exactly the
module's own state keys, and then simply copies values in. -/
theorem load_state_dict_of_keys_eq (m : Module) (sd : StateDict)
    (h : m.state_keys "" = sdKeys sd) :
    Module.load_state_dict m sd true = .ok (m.load_from sd "") := by
  simp only [Module.load_state_dict, h, filter_not_contains_self]
  simp

/-- C7: exporting a wrapper built from a linear base and a parallel adapter
and strictly importing the result into a freshly-constructed wrapper of the
same architecture (same parameter names in the same order, unique names,
none of them the reserved name) succeeds and reproduces bit-identical
parameter values in both the base sub-module and the adapter sub-module. -/
theorem c7_state_round_trip (i o : Nat) (c : AdapterCfg) (ps ps' qs qs' : List Param)
    (hbn : ps.map Param.name = ps'.map Param.name)
    (hbd : (ps.map Param.name).Nodup)
    (han : qs.map Param.name = qs'.map Param.name)
    (had : (qs.map Param.name).Nodup)
    (hres : "adapters" ∉ ps.map Param.name) :
    (AdapterWrapper.load_state_dict (.linear i o ps') (.adapterMod c qs')
        (AdapterWrapper.state_dict (.linear i o ps) (.adapterMod c qs) none "") true).map
      (fun r => (r.to_wrap.params.map (fun p => (p.name, p.value)),
                 r.adapter.params.map (fun p => (p.name, p.value)))) =
      .ok (ps.map (fun p => (p.name, p.value)), qs.map (fun p => (p.name, p.value))) := by
  have hkeys : sdKeys (paramEntries ps "") = ps.map Param.name := by
    simp [sdKeys, paramEntries, empty_append_str]
  have hresB : "adapters" ∉ sdKeys (paramEntries ps "") := by
    rw [hkeys]; exact hres
  have hsd : AdapterWrapper.state_dict (.linear i o ps) (.adapterMod c qs) none "" =
      paramEntries ps "" ++ [("adapters", .nested (paramEntries qs ""))] := by
    simp only [AdapterWrapper.state_dict, Option.getD]
    rw [show Module.state_dict_into (.linear i o ps) [] "" = paramEntries ps "" from rfl,
        show Module.state_dict_into (.adapterMod c qs) [] "" = paramEntries qs "" from rfl,
        show ("" ++ "adapters" : String) = "adapters" from rfl]
    exact sdInsert_of_not_mem _ _ _ hresB
  have hlk : sdLookup (paramEntries ps "" ++
      [("adapters", SDValue.nested (paramEntries qs ""))]) "adapters" =
      some (.nested (paramEntries qs "")) := by
    rw [sdLookup_append_right _ _ _ hresB]
    simp [sdLookup]
  have her : sdErase (paramEntries ps "" ++
      [("adapters", SDValue.nested (paramEntries qs ""))]) "adapters" =
      paramEntries ps "" := sdErase_append_of_not_mem _ _ _ hresB
  have hblkeys : Module.state_keys (.linear i o ps') "" = sdKeys (paramEntries ps "") := by
    rw [hkeys, hbn]
    show sdKeys (Module.state_dict_into (.linear i o ps') [] "") = _
    rw [show Module.state_dict_into (.linear i o ps') [] "" = paramEntries ps' "" from rfl]
    simp [sdKeys, paramEntries, empty_append_str]
  have hbl : Module.load_state_dict (.linear i o ps') (paramEntries ps "") true =
      .ok ((Module.linear i o ps').load_from (paramEntries ps "") "") :=
    load_state_dict_of_keys_eq _ _ hblkeys
  have hbase : ((Module.linear i o ps').load_from (paramEntries ps "") "").params.map
      (fun p => (p.name, p.value)) = ps.map (fun p => (p.name, p.value)) := by
    rw [show (Module.linear i o ps').load_from (paramEntries ps "") "" =
        Module.linear i o (ps'.map (fun p =>
          { p with value := (lookupTensor (paramEntries ps "") ("" ++ p.name)).getD p.value }))
      from rfl]
    simp only [Module.params, empty_append_str]
    exact load_values_of_names_eq ps ps' (paramEntries ps "") hbn
      (lookupTensor_paramEntries ps hbd)
  simp only [AdapterWrapper.load_state_dict, hsd, hlk, her, hbl]
  cases qs with
  | nil =>
    have hq' : qs' = [] := by
      cases qs' with
      | nil => rfl
      | cons a b => simp at han
    subst hq'
    simp only [paramEntries, List.map_nil, List.isEmpty_nil, if_true, Except.map]
    exact congrArg Except.ok (by
      refine Prod.ext ?_ ?_
      · simpa [paramEntries] using hbase
      · rfl)
  | cons q qt =>
    have hne : (paramEntries (q :: qt) "").isEmpty = false := rfl
    rw [hne]
    simp only [Bool.false_eq_true, if_false]
    have hakeys : Module.state_keys (.adapterMod c qs') "" =
        sdKeys (paramEntries (q :: qt) "") := by
      rw [show sdKeys (paramEntries (q :: qt) "") = (q :: qt).map Param.name by
            simp [sdKeys, paramEntries, empty_append_str],
          han]
      show sdKeys (Module.state_dict_into (.adapterMod c qs') [] "") = _
      rw [show Module.state_dict_into (.adapterMod c qs') [] "" = paramEntries qs' "" from rfl]
      simp [sdKeys, paramEntries, empty_append_str]
    have hadl : Module.load_state_dict (.adapterMod c qs') (paramEntries (q :: qt) "") true =
        .ok ((Module.adapterMod c qs').load_from (paramEntries (q :: qt) "") "") :=
      load_state_dict_of_keys_eq _ _ hakeys
    simp only [hadl, Except.map]
    refine congrArg Except.ok (Prod.ext hbase ?_)
    rw [show (Module.adapterMod c qs').load_from (paramEntries (q :: qt) "") "" =
        Module.adapterMod c (qs'.map (fun p =>
          { p with value := (lookupTensor (paramEntries (q :: qt) "")
            ("" ++ p.name)).getD p.value })) from rfl]
    simp only [Module.params, empty_append_str]
    exact load_values_of_names_eq (q :: qt) qs' (paramEntries (q :: qt) "") han
      (lookupTensor_paramEntries (q :: qt) had)

/-- Witness for C7 on concrete trained and fresh wrappers. -/
theorem c7_state_round_trip_witness :
    (AdapterWrapper.load_state_dict
        (.linear 2 2 [⟨"weight", 0, true⟩, ⟨"bias", 0, true⟩])
        (.adapterMod acfgX [⟨"linear_in.weight", 0, true⟩, ⟨"linear_out.weight", 0, true⟩])
        (AdapterWrapper.state_dict
          (.linear 2 2 [⟨"weight", 7, false⟩, ⟨"bias", 3, false⟩])
          (.adapterMod acfgX [⟨"linear_in.weight", 4, true⟩, ⟨"linear_out.weight", 5, true⟩])
          none "") true).map
      (fun r => (r.to_wrap.params.map (fun p => (p.name, p.value)),
                 r.adapter.params.map (fun p => (p.name, p.value)))) =
      .ok ([("weight", (7 : Int)), ("bias", 3)],
           [("linear_in.weight", (4 : Int)), ("linear_out.weight", 5)]) := by
  have h := c7_state_round_trip 2 2 acfgX
    [⟨"weight", 7, false⟩, ⟨"bias", 3, false⟩]
    [⟨"weight", 0, true⟩, ⟨"bias", 0, true⟩]
    [⟨"linear_in.weight", 4, true⟩, ⟨"linear_out.weight", 5, true⟩]
    [⟨"linear_in.weight", 0, true⟩, ⟨"linear_out.weight", 0, true⟩]
    (by decide) (by decide) (by decide) (by decide) (by decide)
  exact h.trans (by decide)

/-- Wrapping a module never yields the module itself (it is strictly
larger), so traversal replacement is never confused with a no-op. -/
theorem wrap_ne (m a : Module) : Module.wrap m a ≠ m := by
  intro h
  have hs := congrArg sizeOf h
  simp at hs
  omega

mutual
/-- Freezing maps every parameter of a module tree through `Param.freeze`. -/
theorem module_freeze_params (m : Module) :
    m.freeze.params = m.params.map Param.freeze := by
  cases m with
  | linear i o ps => rfl
  | adapterMod c ps => rfl
  | wrap b a =>
    show (Module.wrap b.freeze a.freeze).params = _
    simp [Module.params, module_freeze_params b, module_freeze_params a]
  | container cs =>
    show (Module.container cs.freeze).params = _
    simp [Module.params, children_freeze_params cs]

/-- Freezing maps every parameter of a child list through `Param.freeze`. -/
theorem children_freeze_params (cs : Children) :
    cs.freeze.params = cs.params.map Param.freeze := by
  cases cs with
  | nil => rfl
  | cons n c rest =>
    show (Children.cons n c.freeze rest.freeze).params = _
    simp [Children.params, module_freeze_params c, children_freeze_params rest]
end

/-- After freezing, every parameter in the tree is non-trainable. -/
theorem freeze_grad (m : Module) : ∀ p ∈ m.freeze.params, p.requiresGrad = false := by
  rw [module_freeze_params]
  intro p hp
  rcases List.mem_map.mp hp with ⟨q, _, rfl⟩
  rfl

/-- A non-target name leaves the module unchanged. -/
theorem transform_not_target (cfg : LoRA) (tp : Nat) (m : Module)
    (name pfx : String) (h : name ∉ cfg.target_modules) :
    cfg.transform tp m name pfx = .ok m := by
  simp [LoRA.transform, h]

/-- A target name on an already-wrapped module fails with the attribute
error: `AdapterParallelAdd` exposes no `in_features`. -/
theorem transform_wrap_error (cfg : LoRA) (tp : Nat) (b a : Module)
    (name pfx : String) (hmem : name ∈ cfg.target_modules) :
    cfg.transform tp (.wrap b a) name pfx =
      .error (.attributeError "in_features") := by
  unfold LoRA.transform
  rw [if_pos hmem]
  rfl

/-- A target name on a generic container fails the same way. -/
theorem transform_container_error (cfg : LoRA) (tp : Nat) (cs : Children)
    (name pfx : String) (hmem : name ∈ cfg.target_modules) :
    cfg.transform tp (.container cs) name pfx =
      .error (.attributeError "in_features") := by
  unfold LoRA.transform
  rw [if_pos hmem]
  rfl

/-- A target name either wraps the module in a fresh
`AdapterParallelAdd` with a newly constructed adapter, or raises an
attribute error (when the module exposes no feature counts). -/
theorem transform_target (cfg : LoRA) (tp : Nat) (m : Module)
    (name pfx : String) (h : name ∈ cfg.target_modules) :
    (∃ cc : AdapterCfg, cfg.transform tp m name pfx =
      .ok (.wrap m (ParallelLinearAdapter.make cc))) ∨
    cfg.transform tp m name pfx = .error (.attributeError "in_features") := by
  unfold LoRA.transform
  rw [if_pos h]
  cases m with
  | linear i o ps =>
    left
    by_cases hcol : name ∈ ["linear_qkv", "linear_fc1"]
    · refine ⟨⟨i, o * tp, cfg.dim, "identity", none, none, "normal", "zero",
        false, false, cfg.dropout, cfg.dropout_position, cfg.alpha⟩, ?_⟩
      simp only [Module.in_features?, Module.out_features?]
      rw [if_pos hcol]
    · refine ⟨⟨i * tp, o, cfg.dim, "identity", none, none, "normal", "zero",
        false, true, cfg.dropout, cfg.dropout_position, cfg.alpha⟩, ?_⟩
      simp only [Module.in_features?, Module.out_features?]
      rw [if_neg hcol]
  | adapterMod c ps =>
    left
    by_cases hcol : name ∈ ["linear_qkv", "linear_fc1"]
    · refine ⟨⟨c.in_features, c.out_features * tp, cfg.dim, "identity", none, none,
        "normal", "zero", false, false, cfg.dropout, cfg.dropout_position, cfg.alpha⟩, ?_⟩
      simp only [Module.in_features?, Module.out_features?]
      rw [if_pos hcol]
    · refine ⟨⟨c.in_features * tp, c.out_features, cfg.dim, "identity", none, none,
        "normal", "zero", false, true, cfg.dropout, cfg.dropout_position, cfg.alpha⟩, ?_⟩
      simp only [Module.in_features?, Module.out_features?]
      rw [if_neg hcol]
  | wrap b a => right; rfl
  | container cs => right; rfl

/-- The parameters of a freshly-wrapped frozen module split into the frozen
originals and the trainable construction-time adapter parameters. -/
theorem wrapped_params_spec (m0 : Module) (cc : AdapterCfg)
    (hfr : ∀ p ∈ m0.params, p.requiresGrad = false) :
    (Module.wrap m0 (ParallelLinearAdapter.make cc)).params.filter
        (fun p => !p.requiresGrad) = m0.params ∧
    ∀ p ∈ (Module.wrap m0 (ParallelLinearAdapter.make cc)).params,
      p.requiresGrad = true → p ∈ adapterInitParams := by
  constructor
  · show (m0.params ++ adapterInitParams).filter (fun p => !p.requiresGrad) = m0.params
    rw [List.filter_append,
        List.filter_eq_self.mpr (fun p hp => by simp [hfr p hp]),
        show adapterInitParams.filter (fun p => !p.requiresGrad) = [] from rfl,
        List.append_nil]
  · intro p hp hg
    rcases List.mem_append.mp hp with hin | hin
    · rw [hfr p hin] at hg
      exact absurd hg (by simp)
    · exact hin

mutual
/-- Walking a fully-frozen module with the LoRA transform keeps every
original parameter (exactly the non-trainables of the result) and only
introduces construction-time adapter parameters as trainables. -/
theorem module_walk_freeze_spec (cfg : LoRA) (tp : Nat) (m : Module)
    (name pfx : String) (r : Module)
    (hfr : ∀ p ∈ m.params, p.requiresGrad = false)
    (hok : Module.walk (cfg.transform tp) m name pfx = .ok r) :
    r.params.filter (fun p => !p.requiresGrad) = m.params ∧
      ∀ p ∈ r.params, p.requiresGrad = true → p ∈ adapterInitParams := by
  cases m with
  | linear i o ps =>
    rw [Module.walk] at hok
    by_cases hmem : name ∈ cfg.target_modules
    · rcases transform_target cfg tp (.linear i o ps) name pfx hmem with ⟨cc, htr⟩ | htr
      · rw [htr] at hok
        cases hok
        exact wrapped_params_spec (.linear i o ps) cc hfr
      · rw [htr] at hok
        exact absurd hok (by simp)
    · rw [transform_not_target cfg tp (.linear i o ps) name pfx hmem] at hok
      cases hok
      refine ⟨List.filter_eq_self.mpr (fun p hp => by simp [hfr p hp]), ?_⟩
      intro p hp hg
      rw [hfr p hp] at hg
      exact absurd hg (by simp)
  | adapterMod c ps =>
    rw [Module.walk] at hok
    by_cases hmem : name ∈ cfg.target_modules
    · rcases transform_target cfg tp (.adapterMod c ps) name pfx hmem with ⟨cc, htr⟩ | htr
      · rw [htr] at hok
        cases hok
        exact wrapped_params_spec (.adapterMod c ps) cc hfr
      · rw [htr] at hok
        exact absurd hok (by simp)
    · rw [transform_not_target cfg tp (.adapterMod c ps) name pfx hmem] at hok
      cases hok
      refine ⟨List.filter_eq_self.mpr (fun p hp => by simp [hfr p hp]), ?_⟩
      intro p hp hg
      rw [hfr p hp] at hg
      exact absurd hg (by simp)
  | wrap b a =>
    rw [Module.walk] at hok
    by_cases hmem : name ∈ cfg.target_modules
    · simp [transform_wrap_error cfg tp b a name pfx hmem] at hok
    · simp only [transform_not_target cfg tp (.wrap b a) name pfx hmem] at hok
      rw [if_pos trivial] at hok
      have hfrb : ∀ p ∈ b.params, p.requiresGrad = false := fun p hp =>
        hfr p (show p ∈ b.params ++ a.params from List.mem_append_left _ hp)
      have hfra : ∀ p ∈ a.params, p.requiresGrad = false := fun p hp =>
        hfr p (show p ∈ b.params ++ a.params from List.mem_append_right _ hp)
      cases hb : Module.walk (cfg.transform tp) b "to_wrap" (pfx ++ name ++ ".") with
      | error e => simp [hb] at hok
      | ok b' =>
        simp only [hb] at hok
        cases ha : Module.walk (cfg.transform tp) a "adapter" (pfx ++ name ++ ".") with
        | error e => simp [ha] at hok
        | ok a' =>
          simp only [ha] at hok
          cases hok
          have h1 := module_walk_freeze_spec cfg tp b "to_wrap" (pfx ++ name ++ ".") b' hfrb hb
          have h2 := module_walk_freeze_spec cfg tp a "adapter" (pfx ++ name ++ ".") a' hfra ha
          constructor
          · show (b'.params ++ a'.params).filter (fun p => !p.requiresGrad) =
              b.params ++ a.params
            rw [List.filter_append, h1.1, h2.1]
          · intro p hp hg
            rcases List.mem_append.mp hp with hin | hin
            exacts [h1.2 p hin hg, h2.2 p hin hg]
  | container cs =>
    rw [Module.walk] at hok
    by_cases hmem : name ∈ cfg.target_modules
    · simp [transform_container_error cfg tp cs name pfx hmem] at hok
    · simp only [transform_not_target cfg tp (.container cs) name pfx hmem] at hok
      rw [if_pos trivial] at hok
      cases hcw : Children.walk (cfg.transform tp) cs (pfx ++ name ++ ".") with
      | error e => simp [hcw] at hok
      | ok cs' =>
        simp only [hcw] at hok
        cases hok
        exact children_walk_freeze_spec cfg tp cs (pfx ++ name ++ ".") cs' hfr hcw

/-- The child-list version of `module_walk_freeze_spec`. -/
theorem children_walk_freeze_spec (cfg : LoRA) (tp : Nat) (cs : Children)
    (pfx : String) (rs : Children)
    (hfr : ∀ p ∈ cs.params, p.requiresGrad = false)
    (hok : Children.walk (cfg.transform tp) cs pfx = .ok rs) :
    rs.params.filter (fun p => !p.requiresGrad) = cs.params ∧
      ∀ p ∈ rs.params, p.requiresGrad = true → p ∈ adapterInitParams := by
  cases cs with
  | nil =>
    rw [Children.walk] at hok
    cases hok
    exact ⟨rfl, by simp [Children.params]⟩
  | cons n c rest =>
    rw [Children.walk] at hok
    have hfrc : ∀ p ∈ c.params, p.requiresGrad = false := fun p hp =>
      hfr p (show p ∈ c.params ++ rest.params from List.mem_append_left _ hp)
    have hfrr : ∀ p ∈ rest.params, p.requiresGrad = false := fun p hp =>
      hfr p (show p ∈ c.params ++ rest.params from List.mem_append_right _ hp)
    cases hc : Module.walk (cfg.transform tp) c n pfx with
    | error e => simp [hc] at hok
    | ok c' =>
      simp only [hc] at hok
      cases hr : Children.walk (cfg.transform tp) rest pfx with
      | error e => simp [hr] at hok
      | ok rest' =>
        simp only [hr] at hok
        cases hok
        have h1 := module_walk_freeze_spec cfg tp c n pfx c' hfrc hc
        have h2 := children_walk_freeze_spec cfg tp rest pfx rest' hfrr hr
        constructor
        · show (c'.params ++ rest'.params).filter (fun p => !p.requiresGrad) =
            c.params ++ rest.params
          rw [List.filter_append, h1.1, h2.1]
        · intro p hp hg
          rcases List.mem_append.mp hp with hin | hin
          exacts [h1.2 p hin hg, h2.2 p hin hg]
end

/-- C2: the PEFT apply function is the composition of a freeze with the tree
walk (freeze strictly first, by definition of `peft_model_transform`), and
when it completes, the non-trainable parameters of the result are exactly
the frozen pre-existing parameters — so every pre-existing parameter is
non-trainable — while every trainable parameter is a construction-time
adapter parameter, i.e. was newly introduced by adapter construction. -/
theorem c2_freeze_invariant (cfg : LoRA) (tp : Nat) (m r : Module)
    (h : peft_model_transform (cfg.transform tp) m = .ok r) :
    peft_model_transform (cfg.transform tp) m =
      Module.walk (cfg.transform tp) m.freeze "" "" ∧
    r.params.filter (fun p => !p.requiresGrad) = m.params.map Param.freeze ∧
    ∀ p ∈ r.params, p.requiresGrad = true → p ∈ adapterInitParams := by
  have hw := module_walk_freeze_spec cfg tp m.freeze "" "" r (freeze_grad m) h
  exact ⟨rfl, hw.1.trans (module_freeze_params m), hw.2⟩

/-- Witness for C2 on the concrete one-target model at world size 2. -/
theorem c2_freeze_invariant_witness :
    peft_model_transform (({} : LoRA).transform 2) modelX = .ok modelXWrapped ∧
    modelXWrapped.params.filter (fun p => !p.requiresGrad) =
      modelX.params.map Param.freeze ∧
    (modelXWrapped.params.filter (fun p => p.requiresGrad)).all
      (fun p => decide (p ∈ adapterInitParams)) = true :=
  ⟨by decide,
   (c2_freeze_invariant {} 2 modelX modelXWrapped (by decide)).2.1,
   by decide⟩

/-- C8 counterexample: applying the PEFT transform twice to `modelX` does
not leave the already-wrapped module as a no-op and does not raise
`DoubleWrapError` — the second application fails with an `AttributeError`
on `in_features` (the wrapper exposes no feature counts), so the claim's
disjunction fails (though, incidentally, no nested wrapper is produced). -/
theorem c8_counterexample :
    peft_model_transform (({} : LoRA).transform 2) modelX = .ok modelXWrapped ∧
    peft_model_transform (({} : LoRA).transform 2) modelXWrapped =
      .error (.attributeError "in_features") ∧
    (Except.error (TransformError.attributeError "in_features") :
      Except TransformError Module) ≠ .ok modelXWrapped ∧
    TransformError.attributeError "in_features" ≠ TransformError.doubleWrapError :=
  ⟨by decide, by decide, by decide, by decide⟩

/-- C8 amended: a second application never produces a nested
`AdapterWrapper` because the transform fails fast with an `AttributeError`
on any already-wrapped target module (an `AdapterParallelAdd` exposes no
`in_features`), rather than being a no-op or raising `DoubleWrapError`. -/
theorem c8_amended (cfg : LoRA) (tp : Nat) (b a : Module) (name pfx : String)
    (hmem : name ∈ cfg.target_modules) :
    cfg.transform tp (.wrap b a) name pfx =
      .error (.attributeError "in_features") := by
  unfold LoRA.transform
  rw [if_pos hmem]
  rfl

/-- Witness for C8 amended: the wrapped `linear_qkv` module makes the
default-target transform fail with the attribute error. -/
theorem c8_amended_witness :
    ("linear_qkv" ∈ ({} : LoRA).target_modules) ∧
    LoRA.transform {} 2
        (.wrap (.linear 4 4 [⟨"weight", 5, false⟩])
          (ParallelLinearAdapter.make adapterCfgQKV)) "linear_qkv" "" =
      .error (.attributeError "in_features") :=
  ⟨by decide,
   c8_amended {} 2 (.linear 4 4 [⟨"weight", 5, false⟩])
     (ParallelLinearAdapter.make adapterCfgQKV) "linear_qkv" "" (by decide)⟩

end NeMoPEFT
